import Mathlib

/-!
# logshim-zerolog: the zerolog adapter for the logshim logging facade

A shallow embedding of `log.go` (package `logshim_zerolog`).

* `translateLevel`, `New`, `ZeroLogger.*` and `zeroMessage.*` are translated
  line by line from `log.go`.
* The packages `log.go` imports (`logshim`, `zerolog`, `fmt`, `errors`) are not
  part of the source file.  Their pieces that `log.go` calls are modelled from
  the specification; every such definition says so in its doc comment.
* Go pointers to in-flight events are addresses into an explicit heap, and the
  bytes handed to writers are an explicit trace, both held in `World`.
-/

/-! ## Go values, errors and formatting -/

/-- A Go `error` value that is not nil, identified with the text its `Error()`
method returns. -/
structure GoError where
  text : String
  deriving DecidableEq, Repr

/-- The Go interface type `error`; `none` is the nil error. -/
abbrev error := Option GoError

namespace go

/-- The Go type `bool`. -/
abbrev bool := Bool

/-- The Go type `int`; no arithmetic is done on it, so it is an integer. -/
abbrev int := Int

/-- The Go type `int64`. -/
abbrev int64 := Int

/-- The Go type `uint64`. -/
abbrev uint64 := Nat

/-- The Go type `string`. -/
abbrev string := String

end go

namespace time

/-- An instant (`time.Time`), kept abstract as a number. -/
abbrev Time := Nat

end time

/-- The dynamic values passed as `...interface{}` arguments to formatting. -/
inductive GoValue where
  | int (i : Int)
  | str (s : String)
  deriving DecidableEq, Repr

namespace fmt

/-- Modelled from the spec: decimal rendering of an integer, as the verb `%d`
of Go's `fmt` package (absent from the source) prints it: a minus sign for
negative values followed by the digits of the magnitude. -/
def decimal (i : Int) : String :=
  if i < 0 then "-" ++ Nat.repr i.natAbs else Nat.repr i.natAbs

/-- Modelled from the spec: the Go type name `fmt` prints for an operand in a
bad-verb or extra-argument report. -/
def typeName : GoValue → String
  | .int _ => "int"
  | .str _ => "string"

/-- Modelled from the spec: the default (`%v`) rendering of an operand. -/
def plain : GoValue → String
  | .int i => decimal i
  | .str s => s

/-- Modelled from the spec: the substitution `fmt` performs for one verb
applied to one operand.  `%d` renders integers in decimal, `%s` renders
strings, `%v` renders either; any other pairing yields Go's bad-verb report
`%!verb(type=value)`. -/
def formatVerb (verb : Char) (a : GoValue) : String :=
  match verb, a with
  | 'd', .int i => decimal i
  | 's', .str s => s
  | 'v', v => plain v
  | c, v => "%!" ++ String.singleton c ++ "(" ++ typeName v ++ "=" ++ plain v ++ ")"

/-- Modelled from the spec: the report `fmt` appends for operands that no
verb consumed. -/
def extraArgs : List GoValue → String
  | [] => ""
  | a :: rest =>
    "%!(EXTRA " ++ String.intercalate ", "
      ((a :: rest).map fun v => typeName v ++ "=" ++ plain v) ++ ")"

/-- Modelled from the spec: the scanning loop of `fmt.Sprintf` over the
characters of the format.  Literal characters are copied, `%%` yields a
percent sign, `%verb` consumes the next operand (or reports it `MISSING`),
and a trailing lone `%` reports `NOVERB`. -/
def sprintfChars : List Char → List GoValue → List Char
  | [], args => (extraArgs args).data
  | ['%'], args => "%!(NOVERB)".data ++ (extraArgs args).data
  | '%' :: '%' :: rest, args => '%' :: sprintfChars rest args
  | '%' :: v :: rest, [] =>
    '%' :: '!' :: v :: "(MISSING)".data ++ sprintfChars rest []
  | '%' :: v :: rest, a :: args => (formatVerb v a).data ++ sprintfChars rest args
  | c :: rest, args => c :: sprintfChars rest args

/-- Modelled from the spec: `fmt.Sprintf` of Go's standard library (absent from
the source), "standard positional/verb substitution".  The model covers the
verbs `%d`, `%s`, `%v` and `%%` without flags, width, precision or argument
indexes. -/
def Sprintf (format : String) (a : List GoValue) : String :=
  String.mk (sprintfChars format.data a)

end fmt

namespace errors

/-- Modelled from the spec: `errors.New` of `github.com/pkg/errors` (absent
from the source).  It returns a non-nil error whose text is the message. -/
def New (message : String) : error :=
  some { text := message }

end errors

/-! ## Severities -/

namespace logshim

/-- The abstract severity `logshim.Level`: an integer type, so that every
out-of-range value is a possible input. -/
abbrev Level := Int

/-- The five severity constants of package `logshim` (absent from the source).
Their numeric values are not fixed here; the Go compiler rejects a `switch`
with duplicate constant cases, so the five are pairwise distinct. -/
structure Levels where
  ErrorLevel : Level
  WarnLevel : Level
  NoticeLevel : Level
  InfoLevel : Level
  DebugLevel : Level
  distinct : [ErrorLevel, WarnLevel, NoticeLevel, InfoLevel, DebugLevel].Nodup

/-- The values of the five valid abstract severities. -/
def Levels.valid (K : Levels) : List Level :=
  [K.ErrorLevel, K.WarnLevel, K.NoticeLevel, K.InfoLevel, K.DebugLevel]

/-- One concrete numbering of the five severities, used to evaluate the
definitions on concrete inputs. -/
def sample : Levels where
  ErrorLevel := 1
  WarnLevel := 2
  NoticeLevel := 3
  InfoLevel := 4
  DebugLevel := 5
  distinct := by decide

end logshim

namespace zerolog

/-- Modelled from the spec: the backend severity `zerolog.Level` (absent from
the source), an ordered enumeration with at least Debug, Info, Warn, Error. -/
inductive Level where
  | DebugLevel
  | InfoLevel
  | WarnLevel
  | ErrorLevel
  deriving DecidableEq, Repr

/-- Modelled from the spec: the position of a backend severity in the
backend's order, Debug lowest and Error highest. -/
def Level.rank : Level → Nat
  | .DebugLevel => 0
  | .InfoLevel => 1
  | .WarnLevel => 2
  | .ErrorLevel => 3

end zerolog

/-- Translation of `translateLevel` (log.go lines 33-56).  The `switch` is a
chain of comparisons in case order; `NoticeLevel` falls through to the
`InfoLevel` arm; the default arm yields `WarnLevel` and an error. -/
def translateLevel (K : logshim.Levels) (level : logshim.Level) :
    zerolog.Level × error :=
  if level = K.ErrorLevel then (zerolog.Level.ErrorLevel, none)
  else if level = K.WarnLevel then (zerolog.Level.WarnLevel, none)
  else if level = K.NoticeLevel then (zerolog.Level.InfoLevel, none)
  else if level = K.InfoLevel then (zerolog.Level.InfoLevel, none)
  else if level = K.DebugLevel then (zerolog.Level.DebugLevel, none)
  else
    (zerolog.Level.WarnLevel,
      errors.New (fmt.Sprintf "invalid log level %d, defaulting to WARN level"
        [GoValue.int level]))

/-! ## The backend: loggers, in-flight events and the output trace -/

namespace io

/-- An `io.Writer`, identified by a number: the sink a logger is bound to. -/
abbrev Writer := Nat

end io

/-- The typed value of one structured field of an event. -/
inductive FieldValue where
  | err (e : error)
  | bool (b : go.bool)
  | int (i : go.int)
  | int64 (i : go.int64)
  | uint64 (n : go.uint64)
  | str (s : go.string)
  | time (t : time.Time)
  deriving DecidableEq, Repr

/-- One key/value field attached to an event. -/
structure LogField where
  key : String
  val : FieldValue
  deriving DecidableEq, Repr

/-- One structured record handed to a writer: its severity, its fields in
insertion order, the timestamp the logger attached (if configured) and the
message text. -/
structure Record where
  level : zerolog.Level
  fields : List LogField
  timestamp : Option time.Time
  message : String
  deriving DecidableEq, Repr

namespace zerolog

/-- Modelled from the spec: the backend logger `zerolog.Logger` (absent from
the source): bound to one sink, with a minimum severity and the setting that
attaches a timestamp to every emitted record. -/
structure Logger where
  w : io.Writer
  level : Level
  timestamp : Bool
  deriving DecidableEq, Repr

/-- Modelled from the spec: the logger context `zerolog.Context` returned by
`With()`, on which `Timestamp()` is set before `Logger()` rebuilds the logger. -/
structure Context where
  l : Logger
  deriving DecidableEq, Repr

/-- Modelled from the spec: the backend in-flight event `zerolog.Event` (absent
from the source).  `enabled` is false for an event below the minimum severity
of the logger that created it: such an event still accepts every call and is
discarded when emitted. -/
structure Event where
  w : io.Writer
  level : Level
  enabled : Bool
  timestamp : Bool
  fields : List LogField
  deriving DecidableEq, Repr

/-- A Go pointer `*zerolog.Event`: the address of an event in the heap. -/
structure EventPtr where
  addr : Nat
  deriving DecidableEq, Repr

end zerolog

/-- The state the program runs in: the heap of backend events (a slot holds
`none` once its event has been emitted), the trace of records written so far
with the writer each went to, and the reading of the clock. -/
structure World where
  events : List (Option zerolog.Event)
  written : List (io.Writer × Record)
  now : time.Time
  deriving DecidableEq, Repr

/-- A Go computation: it reads and updates the world and yields a result, or
has no defined result (`none`) when a builder is used after its emission. -/
abbrev Prog (α : Type) := World → Option (α × World)

/-- Sequencing of two Go computations. -/
def Prog.andThen {α β : Type} (p : Prog α) (f : α → Prog β) : Prog β :=
  fun w =>
    match p w with
    | none => none
    | some (a, w1) => f a w1

/-- The computation that returns a value and leaves the world unchanged. -/
def Prog.ret {α : Type} (a : α) : Prog α :=
  fun w => some (a, w)

namespace zerolog

/-- Modelled from the spec: `zerolog.New(writer)`, a logger bound to the sink
that filters nothing and attaches no timestamp yet. -/
def New (w : io.Writer) : Logger :=
  { w := w, level := zerolog.Level.DebugLevel, timestamp := false }

/-- Modelled from the spec: `Logger.Level(lvl)`, the logger "configured to
filter out events below the translated minimum level". -/
def Logger.Level (l : Logger) (lvl : zerolog.Level) : Logger :=
  { l with level := lvl }

/-- Modelled from the spec: `Logger.With()`, the context of the logger. -/
def Logger.With (l : Logger) : Context :=
  { l := l }

/-- Modelled from the spec: `Context.Timestamp()`, "configured to auto-attach a
creation/event timestamp to every emitted record". -/
def Context.Timestamp (c : Context) : Context :=
  { l := { c.l with timestamp := true } }

/-- Modelled from the spec: `Context.Logger()`, the logger of the context. -/
def Context.Logger (c : Context) : zerolog.Logger :=
  c.l

/-- Modelled from the spec: starting an event of a given severity on a logger.
A fresh event is allocated at the end of the heap; it is enabled exactly when
its severity is not below the minimum severity of the logger. -/
def Logger.newEvent (l : Logger) (lvl : zerolog.Level) : Prog EventPtr :=
  fun w =>
    some ({ addr := w.events.length },
      { w with
        events := w.events ++
          [some { w := l.w, level := lvl, enabled := decide (l.level.rank ≤ lvl.rank),
                  timestamp := l.timestamp, fields := [] }] })

/-- Modelled from the spec: `Logger.Error()`. -/
def Logger.Error (l : Logger) : Prog EventPtr :=
  l.newEvent zerolog.Level.ErrorLevel

/-- Modelled from the spec: `Logger.Warn()`. -/
def Logger.Warn (l : Logger) : Prog EventPtr :=
  l.newEvent zerolog.Level.WarnLevel

/-- Modelled from the spec: `Logger.Info()`. -/
def Logger.Info (l : Logger) : Prog EventPtr :=
  l.newEvent zerolog.Level.InfoLevel

/-- Modelled from the spec: `Logger.Debug()`. -/
def Logger.Debug (l : Logger) : Prog EventPtr :=
  l.newEvent zerolog.Level.DebugLevel

/-- Modelled from the spec: attaching one field to the event a pointer refers
to.  The event is updated in place, the field goes after the fields already
set, and the same pointer is returned.  There is no defined result when the
event has already been emitted. -/
def EventPtr.field (e : EventPtr) (f : LogField) : Prog EventPtr :=
  fun w =>
    match w.events[e.addr]? with
    | some (some ev) =>
      some (e, { w with
        events := w.events.set e.addr (some { ev with fields := ev.fields ++ [f] }) })
    | _ => none

/-- Modelled from the spec: `Event.Err(err)`, the error cause "attached under a
conventional error field". -/
def EventPtr.Err (e : EventPtr) (err : error) : Prog EventPtr :=
  e.field { key := "error", val := FieldValue.err err }

/-- Modelled from the spec: `Event.Bool(key, val)`. -/
def EventPtr.Bool (e : EventPtr) (key : go.string) (val : go.bool) : Prog EventPtr :=
  e.field { key := key, val := FieldValue.bool val }

/-- Modelled from the spec: `Event.Int(key, val)`. -/
def EventPtr.Int (e : EventPtr) (key : go.string) (val : go.int) : Prog EventPtr :=
  e.field { key := key, val := FieldValue.int val }

/-- Modelled from the spec: `Event.Int64(key, val)`. -/
def EventPtr.Int64 (e : EventPtr) (key : go.string) (val : go.int64) : Prog EventPtr :=
  e.field { key := key, val := FieldValue.int64 val }

/-- Modelled from the spec: `Event.Uint64(key, val)`. -/
def EventPtr.Uint64 (e : EventPtr) (key : go.string) (val : go.uint64) : Prog EventPtr :=
  e.field { key := key, val := FieldValue.uint64 val }

/-- Modelled from the spec: `Event.Str(key, val)`. -/
def EventPtr.Str (e : EventPtr) (key : go.string) (val : go.string) : Prog EventPtr :=
  e.field { key := key, val := FieldValue.str val }

/-- Modelled from the spec: `Event.Time(key, val)`. -/
def EventPtr.Time (e : EventPtr) (key : go.string) (val : time.Time) : Prog EventPtr :=
  e.field { key := key, val := FieldValue.time val }

/-- The record an event becomes when it is emitted with a message text at a
given reading of the clock. -/
def Event.record (ev : Event) (now : time.Time) (msg : go.string) : Record :=
  { level := ev.level, fields := ev.fields,
    timestamp := if ev.timestamp then some now else none, message := msg }

/-- Modelled from the spec: `Event.Msg(msg)`, the terminal emit.  It "attaches
the literal message text and hands the completed event to the backend": an
enabled event is written as one record to the sink of its logger, an event
below the minimum severity is discarded.  Either way the event is consumed
(`Open` to `Emitted`); there is no defined result on an emitted event. -/
def EventPtr.Msg (e : EventPtr) (msg : go.string) : Prog Unit :=
  fun w =>
    match w.events[e.addr]? with
    | some (some ev) =>
      some ((), { w with
        events := w.events.set e.addr none,
        written :=
          if ev.enabled then w.written ++ [(ev.w, ev.record w.now msg)] else w.written })
    | _ => none

/-- Modelled from the spec: `Logger.Err(err)`, which "starts a builder
pre-populated with the given error cause attached under a conventional error
field, at Error severity". -/
def Logger.Err (l : Logger) (err : error) : Prog EventPtr :=
  (l.Error).andThen fun e => e.Err err

end zerolog

/-! ## The adapter: `log.go` -/

/-- The struct `ZeroLogger` (log.go lines 58-61): the adapter name and the
embedded backend logger. -/
structure ZeroLogger where
  name : String
  Logger : zerolog.Logger
  deriving DecidableEq, Repr

/-- The struct `zeroMessage` (log.go lines 101-103): a builder wrapping a
pointer to one backend event. -/
structure zeroMessage where
  Event : zerolog.EventPtr
  deriving DecidableEq, Repr

/-- Translation of `New` (log.go lines 63-71). -/
def New (K : logshim.Levels) (writer : io.Writer) (level : logshim.Level) : Prog ZeroLogger :=
  let (lvl, err) := translateLevel K level
  let lg := ((((zerolog.New writer).Level lvl).With).Timestamp).Logger
  if err ≠ none then
    (((lg.Error).andThen fun e => e.Err err).andThen fun e =>
      e.Msg "log configuration error").andThen fun _ =>
        Prog.ret { name := "ZeroLog", Logger := lg }
  else
    Prog.ret { name := "ZeroLog", Logger := lg }

/-- Translation of `ZeroLogger.Name` (log.go lines 73-75). -/
def ZeroLogger.Name (log : ZeroLogger) : String :=
  log.name

/-- Translation of `ZeroLogger.Err` (log.go lines 77-79). -/
def ZeroLogger.Err (log : ZeroLogger) (err : error) : Prog zeroMessage :=
  (log.Logger.Err err).andThen fun e => Prog.ret { Event := e }

/-- Translation of `ZeroLogger.Error` (log.go lines 81-83). -/
def ZeroLogger.Error (log : ZeroLogger) : Prog zeroMessage :=
  (log.Logger.Error).andThen fun e => Prog.ret { Event := e }

/-- Translation of `ZeroLogger.Warn` (log.go lines 85-87). -/
def ZeroLogger.Warn (log : ZeroLogger) : Prog zeroMessage :=
  (log.Logger.Warn).andThen fun e => Prog.ret { Event := e }

/-- Translation of `ZeroLogger.Debug` (log.go lines 89-91). -/
def ZeroLogger.Debug (log : ZeroLogger) : Prog zeroMessage :=
  (log.Logger.Debug).andThen fun e => Prog.ret { Event := e }

/-- Translation of `ZeroLogger.Notice` (log.go lines 93-95): the backend call
is `Info()`. -/
def ZeroLogger.Notice (log : ZeroLogger) : Prog zeroMessage :=
  (log.Logger.Info).andThen fun e => Prog.ret { Event := e }

/-- Translation of `ZeroLogger.Info` (log.go lines 97-99). -/
def ZeroLogger.Info (log : ZeroLogger) : Prog zeroMessage :=
  (log.Logger.Info).andThen fun e => Prog.ret { Event := e }

/-- Translation of `zeroMessage.Err` (log.go lines 105-108): the result of the
backend call is dropped and the receiver is returned. -/
def zeroMessage.Err (msg : zeroMessage) (err : error) : Prog zeroMessage :=
  (msg.Event.Err err).andThen fun _ => Prog.ret msg

/-- Translation of `zeroMessage.Bool` (log.go lines 110-113). -/
def zeroMessage.Bool (msg : zeroMessage) (key : go.string) (val : go.bool) : Prog zeroMessage :=
  (msg.Event.Bool key val).andThen fun _ => Prog.ret msg

/-- Translation of `zeroMessage.Int` (log.go lines 115-118). -/
def zeroMessage.Int (msg : zeroMessage) (key : go.string) (val : go.int) : Prog zeroMessage :=
  (msg.Event.Int key val).andThen fun _ => Prog.ret msg

/-- Translation of `zeroMessage.Int64` (log.go lines 120-123). -/
def zeroMessage.Int64 (msg : zeroMessage) (key : go.string) (val : go.int64) : Prog zeroMessage :=
  (msg.Event.Int64 key val).andThen fun _ => Prog.ret msg

/-- Translation of `zeroMessage.Uint64` (log.go lines 125-128). -/
def zeroMessage.Uint64 (msg : zeroMessage) (key : go.string) (val : go.uint64) : Prog zeroMessage :=
  (msg.Event.Uint64 key val).andThen fun _ => Prog.ret msg

/-- Translation of `zeroMessage.Str` (log.go lines 130-133). -/
def zeroMessage.Str (msg : zeroMessage) (key : go.string) (val : go.string) : Prog zeroMessage :=
  (msg.Event.Str key val).andThen fun _ => Prog.ret msg

/-- Translation of `zeroMessage.Time` (log.go lines 135-138). -/
def zeroMessage.Time (msg : zeroMessage) (key : go.string) (val : time.Time) : Prog zeroMessage :=
  (msg.Event.Time key val).andThen fun _ => Prog.ret msg

/-- Translation of `zeroMessage.Msg` (log.go lines 140-142). -/
def zeroMessage.Msg (msg : zeroMessage) (val : go.string) : Prog Unit :=
  msg.Event.Msg val

/-- Translation of `zeroMessage.Msgf` (log.go lines 144-146). -/
def zeroMessage.Msgf (msg : zeroMessage) (format : go.string) (a : List GoValue) : Prog Unit :=
  msg.Msg (fmt.Sprintf format a)

/-- An empty world: no event in flight, nothing written, clock reading 1000. -/
def World.start : World :=
  { events := [], written := [], now := 1000 }

/-! ## Caller programs: entry methods and chains of setters -/

/-- The five emission-entry methods of the facade that are named after an
abstract severity. -/
inductive Entry where
  | Error
  | Warn
  | Notice
  | Info
  | Debug
  deriving DecidableEq, Repr

/-- The abstract severity an entry method is named after. -/
def Entry.severity (K : logshim.Levels) : Entry → logshim.Level
  | .Error => K.ErrorLevel
  | .Warn => K.WarnLevel
  | .Notice => K.NoticeLevel
  | .Info => K.InfoLevel
  | .Debug => K.DebugLevel

/-- The call of an entry method on a facade. -/
def Entry.call : Entry → ZeroLogger → Prog zeroMessage
  | .Error, log => log.Error
  | .Warn, log => log.Warn
  | .Notice, log => log.Notice
  | .Info, log => log.Info
  | .Debug, log => log.Debug

/-- One call of a field setter of the builder, with its arguments. -/
inductive Setter where
  | Err (err : error)
  | Bool (key : go.string) (val : go.bool)
  | Int (key : go.string) (val : go.int)
  | Int64 (key : go.string) (val : go.int64)
  | Uint64 (key : go.string) (val : go.uint64)
  | Str (key : go.string) (val : go.string)
  | Time (key : go.string) (val : time.Time)
  deriving DecidableEq, Repr

/-- The call of a field setter on a builder. -/
def Setter.call : Setter → zeroMessage → Prog zeroMessage
  | .Err err, msg => msg.Err err
  | .Bool key val, msg => msg.Bool key val
  | .Int key val, msg => msg.Int key val
  | .Int64 key val, msg => msg.Int64 key val
  | .Uint64 key val, msg => msg.Uint64 key val
  | .Str key val, msg => msg.Str key val
  | .Time key val, msg => msg.Time key val

/-- The key/value a setter call is given. -/
def Setter.given : Setter → LogField
  | .Err err => { key := "error", val := FieldValue.err err }
  | .Bool key val => { key := key, val := FieldValue.bool val }
  | .Int key val => { key := key, val := FieldValue.int val }
  | .Int64 key val => { key := key, val := FieldValue.int64 val }
  | .Uint64 key val => { key := key, val := FieldValue.uint64 val }
  | .Str key val => { key := key, val := FieldValue.str val }
  | .Time key val => { key := key, val := FieldValue.time val }

/-- A chain of setter calls, each made on the builder the previous call
returned. -/
def zeroMessage.chain (msg : zeroMessage) : List Setter → Prog zeroMessage
  | [] => Prog.ret msg
  | s :: rest => (s.call msg).andThen fun m => m.chain rest

/-- The caller program `facade.Info().Str("k","v").Int("n",42).Msg("hello")`. -/
def helloChain (log : ZeroLogger) : Prog Unit :=
  (((log.Info).andThen fun m => m.Str "k" "v").andThen fun m => m.Int "n" 42).andThen
    fun m => m.Msg "hello"

/-- The caller program `facade.Err(cause).Msg("failed")`. -/
def failedChain (log : ZeroLogger) (cause : error) : Prog Unit :=
  (log.Err cause).andThen fun m => m.Msg "failed"

/-- The facade value `New` is shown to return (`New_eq`): named "ZeroLog", bound to the sink, filtering at
the translated level and attaching timestamps. -/
def facadeOf (K : logshim.Levels) (sink : io.Writer) (minLevel : logshim.Level) : ZeroLogger :=
  { name := "ZeroLog",
    Logger := { w := sink, level := (translateLevel K minLevel).1, timestamp := true } }

/-- The world after a field has been appended to the open event `ev` stored
at an address: only that slot of the heap changes. -/
def World.attach (w : World) (addr : Nat) (ev : zerolog.Event) (f : LogField) : World :=
  { w with events := w.events.set addr (some { ev with fields := ev.fields ++ [f] }) }

/-- A world with one open, enabled Info event at address 0 that already holds
one field. -/
def World.oneOpen : World :=
  { events := [some { w := 7, level := zerolog.Level.InfoLevel, enabled := true,
                      timestamp := true,
                      fields := [{ key := "a", val := FieldValue.bool true }] }],
    written := [], now := 1000 }

/-! ## Properties of `translateLevel` -/

/-- The decimal rendering of the model agrees with the standard rendering of
integers. -/
theorem fmt.decimal_eq_repr (i : Int) : fmt.decimal i = Int.repr i := by
  cases i with
  | ofNat n =>
    have h : ¬ ((n : Int) < 0) := not_lt.mpr (Int.ofNat_nonneg n)
    simp [fmt.decimal, Int.repr, h]
  | negSucc n =>
    simp [fmt.decimal, Int.repr, Int.negSucc_lt_zero, Int.natAbs]

/-- The text `fmt.Sprintf` builds in the default arm of `translateLevel`. -/
theorem Sprintf_invalid_level (level : Int) :
    fmt.Sprintf "invalid log level %d, defaulting to WARN level" [GoValue.int level] =
      "invalid log level " ++ fmt.decimal level ++ ", defaulting to WARN level" := by
  apply String.ext
  simp [fmt.Sprintf, fmt.sprintfChars, fmt.formatVerb, fmt.extraArgs]

/-- The five severity constants are pairwise distinct. -/
theorem logshim.Levels.ne (K : logshim.Levels) :
    K.ErrorLevel ≠ K.WarnLevel ∧ K.ErrorLevel ≠ K.NoticeLevel ∧
    K.ErrorLevel ≠ K.InfoLevel ∧ K.ErrorLevel ≠ K.DebugLevel ∧
    K.WarnLevel ≠ K.NoticeLevel ∧ K.WarnLevel ≠ K.InfoLevel ∧
    K.WarnLevel ≠ K.DebugLevel ∧ K.NoticeLevel ≠ K.InfoLevel ∧
    K.NoticeLevel ≠ K.DebugLevel ∧ K.InfoLevel ≠ K.DebugLevel := by
  have h := K.distinct
  simp only [List.nodup_cons, List.mem_cons, List.mem_singleton, not_or] at h
  tauto

/-- On a level that is none of the five constants, `translateLevel` takes the
default arm. -/
theorem translateLevel_default (K : logshim.Levels) (level : logshim.Level)
    (h : level ∉ K.valid) :
    translateLevel K level =
      (zerolog.Level.WarnLevel,
        some { text := "invalid log level " ++ fmt.decimal level ++
          ", defaulting to WARN level" }) := by
  simp only [logshim.Levels.valid, List.mem_cons, List.mem_singleton, not_or,
    List.not_mem_nil, not_false_eq_true, and_true] at h
  obtain ⟨h1, h2, h3, h4, h5⟩ := h
  simp [translateLevel, h1, h2, h3, h4, h5, errors.New, Sprintf_invalid_level]

/-- The backend severity `translateLevel` gives for the abstract severity of
each entry method is the severity of the backend event that method starts. -/
theorem translateLevel_entry (K : logshim.Levels) :
    (translateLevel K K.ErrorLevel).1 = zerolog.Level.ErrorLevel ∧
    (translateLevel K K.WarnLevel).1 = zerolog.Level.WarnLevel ∧
    (translateLevel K K.NoticeLevel).1 = zerolog.Level.InfoLevel ∧
    (translateLevel K K.InfoLevel).1 = zerolog.Level.InfoLevel ∧
    (translateLevel K K.DebugLevel).1 = zerolog.Level.DebugLevel := by
  obtain ⟨h1, h2, h3, h4, h5, h6, h7, h8, h9, h10⟩ := K.ne
  simp [translateLevel, h1.symm, h2.symm, h3.symm, h4.symm, h5.symm, h6.symm, h7.symm,
    h8.symm, h9.symm, h10.symm]

/-- C1: for each of the five valid abstract severities, `translateLevel`
returns the mapped backend severity and a nil error: Error to Error, Warn to
Warn, Notice to Info, Info to Info, Debug to Debug. -/
theorem translateLevel_valid (K : logshim.Levels) :
    translateLevel K K.ErrorLevel = (zerolog.Level.ErrorLevel, none) ∧
    translateLevel K K.WarnLevel = (zerolog.Level.WarnLevel, none) ∧
    translateLevel K K.NoticeLevel = (zerolog.Level.InfoLevel, none) ∧
    translateLevel K K.InfoLevel = (zerolog.Level.InfoLevel, none) ∧
    translateLevel K K.DebugLevel = (zerolog.Level.DebugLevel, none) := by
  obtain ⟨h1, h2, h3, h4, h5, h6, h7, h8, h9, h10⟩ := K.ne
  refine ⟨?_, ?_, ?_, ?_, ?_⟩
  · simp [translateLevel]
  · simp [translateLevel, h1.symm]
  · simp [translateLevel, h2.symm, h5.symm]
  · simp [translateLevel, h3.symm, h6.symm, h8.symm]
  · simp [translateLevel, h4.symm, h7.symm, h9.symm, h10.symm]

/-- C2: for every level that is not one of the five valid abstract severities,
`translateLevel` returns backend severity Warn together with a non-nil error,
and the text of the error contains the decimal rendering of the level: it is
that rendering between a fixed opening and a fixed closing text. -/
theorem translateLevel_invalid (K : logshim.Levels) (level : logshim.Level)
    (h : level ∉ K.valid) :
    (translateLevel K level).1 = zerolog.Level.WarnLevel ∧
    ∃ e : GoError, (translateLevel K level).2 = some e ∧
      e.text = "invalid log level " ++ fmt.decimal level ++ ", defaulting to WARN level" ∧
      ∃ before after : String, e.text = before ++ fmt.decimal level ++ after := by
  rw [translateLevel_default K level h]
  exact ⟨rfl, _, rfl, rfl, _, _, rfl⟩

/-- Witness for C2 at the level 99 and at the level -1, with the severities
numbered 1 to 5. -/
theorem translateLevel_invalid_witness :
    ((99 : Int) ∉ logshim.sample.valid ∧
      (translateLevel logshim.sample 99).1 = zerolog.Level.WarnLevel ∧
      ∃ e : GoError, (translateLevel logshim.sample 99).2 = some e ∧
        e.text = "invalid log level " ++ fmt.decimal 99 ++ ", defaulting to WARN level" ∧
        ∃ before after : String, e.text = before ++ fmt.decimal 99 ++ after) ∧
    ((-1 : Int) ∉ logshim.sample.valid ∧
      (translateLevel logshim.sample (-1)).1 = zerolog.Level.WarnLevel ∧
      ∃ e : GoError, (translateLevel logshim.sample (-1)).2 = some e ∧
        e.text = "invalid log level " ++ fmt.decimal (-1) ++ ", defaulting to WARN level" ∧
        ∃ before after : String, e.text = before ++ fmt.decimal (-1) ++ after) :=
  ⟨⟨by decide, translateLevel_invalid logshim.sample 99 (by decide)⟩,
   ⟨by decide, translateLevel_invalid logshim.sample (-1) (by decide)⟩⟩

/-! ## Properties of the heap of events -/

/-- The event allocated last is found at the address equal to the former size
of the heap. -/
theorem heap_get_last (es : List (Option zerolog.Event)) (x : Option zerolog.Event) :
    (es ++ [x])[es.length]? = some x := by
  simp

/-- Updating the event allocated last leaves the rest of the heap unchanged. -/
theorem heap_set_last (es : List (Option zerolog.Event)) (x y : Option zerolog.Event) :
    (es ++ [x]).set es.length y = es ++ [y] := by
  simp

/-- Starting an event allocates it at the end of the heap. -/
theorem newEvent_eq (l : zerolog.Logger) (lvl : zerolog.Level) (w : World) :
    l.newEvent lvl w = some ({ addr := w.events.length },
      { w with
        events := w.events ++
          [some { w := l.w, level := lvl, enabled := decide (l.level.rank ≤ lvl.rank),
                  timestamp := l.timestamp, fields := [] }] }) :=
  rfl

/-- Attaching a field to an open event appends it to the fields of the event. -/
theorem field_open (e : zerolog.EventPtr) (f : LogField) (w : World) (ev : zerolog.Event)
    (h : w.events[e.addr]? = some (some ev)) :
    e.field f w = some (e, { w with
      events := w.events.set e.addr (some { ev with fields := ev.fields ++ [f] }) }) := by
  simp [zerolog.EventPtr.field, h]

/-- Emitting an open event consumes it and writes its record when enabled. -/
theorem Msg_open (e : zerolog.EventPtr) (text : go.string) (w : World) (ev : zerolog.Event)
    (h : w.events[e.addr]? = some (some ev)) :
    e.Msg text w = some ((), { w with
      events := w.events.set e.addr none,
      written :=
        if ev.enabled then w.written ++ [(ev.w, ev.record w.now text)] else w.written }) := by
  simp [zerolog.EventPtr.Msg, h]

/-- Every setter call on a builder whose event is open appends the given
key/value and returns the builder. -/
theorem Setter.call_open (s : Setter) (msg : zeroMessage) (w : World) (ev : zerolog.Event)
    (h : w.events[msg.Event.addr]? = some (some ev)) :
    s.call msg w = some (msg, { w with
      events := w.events.set msg.Event.addr
        (some { ev with fields := ev.fields ++ [s.given] }) }) := by
  cases s <;>
    simp [Setter.call, Setter.given, zeroMessage.Err, zeroMessage.Bool, zeroMessage.Int,
      zeroMessage.Int64, zeroMessage.Uint64, zeroMessage.Str, zeroMessage.Time,
      zerolog.EventPtr.Err, zerolog.EventPtr.Bool, zerolog.EventPtr.Int,
      zerolog.EventPtr.Int64, zerolog.EventPtr.Uint64, zerolog.EventPtr.Str,
      zerolog.EventPtr.Time, Prog.andThen, Prog.ret, field_open _ _ w ev h]

/-- A chain of setter calls on the builder of the event allocated last appends
the given key/values in call order and returns the builder. -/
theorem chain_last (ss : List Setter) (es : List (Option zerolog.Event))
    (ev : zerolog.Event) (wr : List (io.Writer × Record)) (now : time.Time) :
    zeroMessage.chain { Event := { addr := es.length } } ss
        { events := es ++ [some ev], written := wr, now := now } =
      some ({ Event := { addr := es.length } },
        { events := es ++ [some { ev with fields := ev.fields ++ ss.map Setter.given }],
          written := wr, now := now }) := by
  induction ss generalizing ev with
  | nil => simp [zeroMessage.chain, Prog.ret]
  | cons s rest ih =>
    have h : ({ events := es ++ [some ev], written := wr, now := now } : World).events[
        ({ Event := { addr := es.length } } : zeroMessage).Event.addr]? = some (some ev) := by
      simp
    simp only [zeroMessage.chain, Prog.andThen, Setter.call_open s _ _ ev h, heap_set_last]
    rw [ih]
    simp

/-! ## Properties of the facade -/

/-- The value `New` returns, and the world it leaves: unchanged when the
translation gave no error, otherwise with one consumed event and one
Error-severity record carrying the error. -/
theorem New_eq (K : logshim.Levels) (sink : io.Writer) (minLevel : logshim.Level)
    (w : World) :
    New K sink minLevel w = some (facadeOf K sink minLevel,
      if (translateLevel K minLevel).2 = none then w
      else
        { w with
          events := w.events ++ [none],
          written := w.written ++
            [(sink, { level := zerolog.Level.ErrorLevel,
                      fields := [{ key := "error",
                                   val := FieldValue.err (translateLevel K minLevel).2 }],
                      timestamp := some w.now,
                      message := "log configuration error" })] }) := by
  rcases h : translateLevel K minLevel with ⟨lvl, err⟩
  cases err with
  | none => simp [New, h, facadeOf, Prog.ret, zerolog.New, zerolog.Logger.Level,
      zerolog.Logger.With, zerolog.Context.Timestamp, zerolog.Context.Logger]
  | some e =>
    cases lvl <;>
    simp [New, h, facadeOf, Prog.ret, Prog.andThen, zerolog.New, zerolog.Logger.Level,
      zerolog.Logger.With, zerolog.Context.Timestamp, zerolog.Context.Logger,
      zerolog.Logger.Error, zerolog.Logger.newEvent, zerolog.EventPtr.Err,
      zerolog.EventPtr.field, zerolog.EventPtr.Msg, zerolog.Event.record,
      zerolog.Level.rank]

/-- The event an entry method starts: allocated last, at the backend severity
of the method, enabled exactly when that severity is not below the minimum
severity of the logger. -/
theorem Entry.call_eq (K : logshim.Levels) (s : Entry) (log : ZeroLogger) (w : World) :
    s.call log w = some ({ Event := { addr := w.events.length } },
      { w with
        events := w.events ++
          [some { w := log.Logger.w, level := (translateLevel K (s.severity K)).1,
                  enabled := decide (log.Logger.level.rank ≤
                    (translateLevel K (s.severity K)).1.rank),
                  timestamp := log.Logger.timestamp, fields := [] }] }) := by
  obtain ⟨h1, h2, h3, h4, h5⟩ := translateLevel_entry K
  cases s <;>
    simp [Entry.call, Entry.severity, h1, h2, h3, h4, h5, ZeroLogger.Error, ZeroLogger.Warn,
      ZeroLogger.Notice, ZeroLogger.Info, ZeroLogger.Debug, zerolog.Logger.Error,
      zerolog.Logger.Warn, zerolog.Logger.Info, zerolog.Logger.Debug,
      zerolog.Logger.newEvent, Prog.andThen, Prog.ret]

/-- C3: for every sink and every invalid minLevel, `New` returns a facade
(construction does not fail) whose threshold is the fallback Warn, and during
construction exactly one record is written to the sink: it is at Error
severity and carries the translation error, whose text names the invalid
level, under the field "error". -/
theorem New_invalid_reports (K : logshim.Levels) (sink : io.Writer)
    (minLevel : logshim.Level) (w : World) (h : minLevel ∉ K.valid) :
    ∃ (log : ZeroLogger) (w1 : World) (e : GoError),
      New K sink minLevel w = some (log, w1) ∧
      log.Logger.level = zerolog.Level.WarnLevel ∧
      (translateLevel K minLevel).2 = some e ∧
      e.text = "invalid log level " ++ fmt.decimal minLevel ++ ", defaulting to WARN level" ∧
      w1.written = w.written ++
        [(sink, { level := zerolog.Level.ErrorLevel,
                  fields := [{ key := "error", val := FieldValue.err (some e) }],
                  timestamp := some w.now,
                  message := "log configuration error" })] := by
  refine ⟨_, _, _, New_eq K sink minLevel w, ?_, ?_, rfl, ?_⟩
  · simp [facadeOf, translateLevel_default K minLevel h]
  · rw [translateLevel_default K minLevel h]
  · simp [translateLevel_default K minLevel h]

/-- Witness for C3: the sink 7, the invalid level 99, the empty world. -/
theorem New_invalid_reports_witness :
    (99 : Int) ∉ logshim.sample.valid ∧
    ∃ (log : ZeroLogger) (w1 : World) (e : GoError),
      New logshim.sample 7 99 World.start = some (log, w1) ∧
      log.Logger.level = zerolog.Level.WarnLevel ∧
      (translateLevel logshim.sample 99).2 = some e ∧
      e.text = "invalid log level " ++ fmt.decimal 99 ++ ", defaulting to WARN level" ∧
      w1.written = World.start.written ++
        [(7, { level := zerolog.Level.ErrorLevel,
               fields := [{ key := "error", val := FieldValue.err (some e) }],
               timestamp := some World.start.now,
               message := "log configuration error" })] :=
  ⟨by decide, New_invalid_reports logshim.sample 7 99 World.start (by decide)⟩

/-- C10: for every sink and every minLevel, valid or not, `New` returns a
facade whose `Name()` is the constant, non-empty string "ZeroLog". -/
theorem New_Name (K : logshim.Levels) (sink : io.Writer) (minLevel : logshim.Level)
    (w : World) :
    ∃ (log : ZeroLogger) (w1 : World),
      New K sink minLevel w = some (log, w1) ∧ log.Name = "ZeroLog" ∧ log.Name ≠ "" :=
  ⟨_, _, New_eq K sink minLevel w, rfl, by
    show "ZeroLog" ≠ ""
    decide⟩

/-- C4: for every facade and every error cause, nil included,
`facade.Err(cause)` followed by `Msg("failed")` writes exactly one record, to
the sink of the facade: at Error severity, with the cause under the field
"error" and the message text "failed". -/
theorem Err_then_Msg (log : ZeroLogger) (cause : error) (w : World) :
    ∃ w1 : World, failedChain log cause w = some ((), w1) ∧
      w1.written = w.written ++
        [(log.Logger.w,
          { level := zerolog.Level.ErrorLevel,
            fields := [{ key := "error", val := FieldValue.err cause }],
            timestamp := if log.Logger.timestamp then some w.now else none,
            message := "failed" })] := by
  have hr : log.Logger.level.rank ≤ zerolog.Level.ErrorLevel.rank := by
    cases log.Logger.level <;> simp [zerolog.Level.rank]
  simp only [failedChain, ZeroLogger.Err, zerolog.Logger.Err, zerolog.Logger.Error,
    Prog.andThen, Prog.ret, newEvent_eq, zeroMessage.Msg, zerolog.EventPtr.Err]
  rw [field_open _ _ _ _ (heap_get_last _ _)]
  simp only [heap_set_last]
  rw [Msg_open _ _ _ _ (heap_get_last _ _)]
  exact ⟨_, rfl, by simp [zerolog.Event.record, hr]⟩

/-- Counterexample to C5 as stated: on the facade built with minLevel Error the
chain `Info().Str("k","v").Int("n",42).Msg("hello")` writes no record at all. -/
theorem helloChain_filtered :
    ((New logshim.sample 7 logshim.sample.ErrorLevel).andThen helloChain) World.start =
      some ((), { events := [none], written := [], now := 1000 }) := by
  decide

/-- What the chain `Info().Str("k","v").Int("n",42).Msg("hello")` does on any
facade in any world: it consumes one event, and writes its record exactly when
the minimum severity of the logger is not above Info. -/
theorem helloChain_eq (log : ZeroLogger) (w : World) :
    helloChain log w = some ((), { w with
      events := w.events ++ [none],
      written :=
        if log.Logger.level.rank ≤ zerolog.Level.InfoLevel.rank then
          w.written ++
            [(log.Logger.w,
              { level := zerolog.Level.InfoLevel,
                fields := [{ key := "k", val := FieldValue.str "v" },
                           { key := "n", val := FieldValue.int 42 }],
                timestamp := if log.Logger.timestamp then some w.now else none,
                message := "hello" })]
        else w.written }) := by
  simp only [helloChain, ZeroLogger.Info, zerolog.Logger.Info, Prog.andThen, Prog.ret,
    newEvent_eq, zeroMessage.Msg, zeroMessage.Str, zeroMessage.Int, zerolog.EventPtr.Str,
    zerolog.EventPtr.Int]
  rw [field_open _ _ _ _ (heap_get_last _ _)]
  simp only [heap_set_last]
  rw [field_open _ _ _ _ (heap_get_last _ _)]
  simp only [heap_set_last]
  rw [Msg_open _ _ _ _ (heap_get_last _ _)]
  simp [zerolog.Event.record]

/-- C5 (amended): for every facade built by `New` whose minimum severity
translates to Info or Debug (minLevel Notice, Info or Debug), in every later
world the chain `Info().Str("k","v").Int("n",42).Msg("hello")` writes exactly
one record, to the sink of the facade: at Info severity, with message text
"hello", the fields k="v" and n=42 in this order, and a timestamp. -/
theorem helloChain_emits (K : logshim.Levels) (sink : io.Writer) (minLevel : logshim.Level)
    (w0 w : World)
    (h : (translateLevel K minLevel).1.rank ≤ zerolog.Level.InfoLevel.rank) :
    ∃ (log : ZeroLogger) (w1 w2 : World),
      New K sink minLevel w0 = some (log, w1) ∧
      helloChain log w = some ((), w2) ∧
      w2.written = w.written ++
        [(sink, { level := zerolog.Level.InfoLevel,
                  fields := [{ key := "k", val := FieldValue.str "v" },
                             { key := "n", val := FieldValue.int 42 }],
                  timestamp := some w.now,
                  message := "hello" })] :=
  ⟨_, _, _, New_eq K sink minLevel w0, helloChain_eq _ w, by simp [facadeOf, h]⟩

/-- Witness for C5 (amended): the sink 7 and minLevel Debug, from the empty
world. -/
theorem helloChain_emits_witness :
    (translateLevel logshim.sample logshim.sample.DebugLevel).1.rank ≤
        zerolog.Level.InfoLevel.rank ∧
    ∃ (log : ZeroLogger) (w1 w2 : World),
      New logshim.sample 7 logshim.sample.DebugLevel World.start = some (log, w1) ∧
      helloChain log World.start = some ((), w2) ∧
      w2.written = World.start.written ++
        [(7, { level := zerolog.Level.InfoLevel,
               fields := [{ key := "k", val := FieldValue.str "v" },
                          { key := "n", val := FieldValue.int 42 }],
               timestamp := some World.start.now,
               message := "hello" })] :=
  ⟨by decide,
    helloChain_emits logshim.sample 7 logshim.sample.DebugLevel World.start World.start
      (by decide)⟩

/-- What an entry method followed by a chain of setters and `Msg` does on any
facade in any world: the builder the entry method returns refers to a fresh
event, the whole chain has a result, and one record is written exactly when
the minimum severity of the logger is not above the severity of the entry. -/
theorem entry_chain_eq (K : logshim.Levels) (s : Entry) (ss : List Setter)
    (text : go.string) (log : ZeroLogger) (w : World) :
    ∃ w2 : World,
      s.call log w = some ({ Event := { addr := w.events.length } }, w2) ∧
      w2.written = w.written ∧
      ((zeroMessage.chain { Event := { addr := w.events.length } } ss).andThen
          fun m => m.Msg text) w2 =
        some ((), { w with
          events := w.events ++ [none],
          written :=
            if log.Logger.level.rank ≤ (translateLevel K (s.severity K)).1.rank then
              w.written ++
                [(log.Logger.w,
                  { level := (translateLevel K (s.severity K)).1,
                    fields := ss.map Setter.given,
                    timestamp := if log.Logger.timestamp then some w.now else none,
                    message := text })]
            else w.written }) := by
  refine ⟨_, Entry.call_eq K s log w, rfl, ?_⟩
  simp only [Prog.andThen, chain_last, zeroMessage.Msg]
  rw [Msg_open _ _ _ _ (heap_get_last _ _)]
  simp [zerolog.Event.record]

/-- C6: for every facade built by `New(sink, m)`, every entry method of
abstract severity s, every chain of setters and every message text, in every
later world: the entry method returns a builder, the setters and `Msg` chained
on it have a result, and a record is written to the sink if and only if the
backend severity of s is at least `translateLevel(m)`; otherwise nothing is
written. -/
theorem entry_emits_iff (K : logshim.Levels) (sink : io.Writer) (minLevel : logshim.Level)
    (w0 w : World) (s : Entry) (ss : List Setter) (text : go.string) :
    ∃ (log : ZeroLogger) (w1 : World), New K sink minLevel w0 = some (log, w1) ∧
      ∃ (b : zeroMessage) (w2 w3 : World),
        s.call log w = some (b, w2) ∧ w2.written = w.written ∧
        ((b.chain ss).andThen fun m => m.Msg text) w2 = some ((), w3) ∧
        (w3.written =
          if (translateLevel K minLevel).1.rank ≤ (translateLevel K (s.severity K)).1.rank then
            w.written ++
              [(sink, { level := (translateLevel K (s.severity K)).1,
                        fields := ss.map Setter.given,
                        timestamp := some w.now,
                        message := text })]
          else w.written) ∧
        ((∃ r : Record, w3.written = w.written ++ [(sink, r)]) ↔
          (translateLevel K minLevel).1.rank ≤ (translateLevel K (s.severity K)).1.rank) := by
  obtain ⟨w2, h1, h2, h3⟩ := entry_chain_eq K s ss text (facadeOf K sink minLevel) w
  refine ⟨_, _, New_eq K sink minLevel w0, _, w2, _, h1, h2, h3, ?_, ?_⟩
  · simp [facadeOf]
  · by_cases hc : (translateLevel K minLevel).1.rank ≤ (translateLevel K (s.severity K)).1.rank
    · simp [facadeOf, hc]
    · simp [facadeOf, hc]

/-- C7: for every builder, format and argument list, `Msgf(format, args...)`
is the same computation as `Msg(Sprintf(format, args...))` on that builder; in
particular `Msgf("count=%d", 7)` is the same computation as `Msg("count=7")`. -/
theorem Msgf_eq_Msg (msg : zeroMessage) (format : go.string) (a : List GoValue) :
    msg.Msgf format a = msg.Msg (fmt.Sprintf format a) ∧
    msg.Msgf "count=%d" [GoValue.int 7] = msg.Msg "count=7" := by
  have h : fmt.Sprintf "count=%d" [GoValue.int 7] = "count=7" := by decide
  refine ⟨rfl, ?_⟩
  show msg.Msg (fmt.Sprintf "count=%d" [GoValue.int 7]) = msg.Msg "count=7"
  rw [h]

/-- C8: every field setter of the builder (Err, Bool, Int, Int64, Uint64, Str,
Time), called on a builder whose event is open, returns the builder it was
called on, and its only effect is to append the given key/value to the wrapped
event after the fields already set: the earlier fields, their order, the
severity of the event, every other event, the records written and the clock
are unchanged. -/
theorem setters_append (msg : zeroMessage) (w : World) (ev : zerolog.Event)
    (h : w.events[msg.Event.addr]? = some (some ev))
    (err : error) (key : go.string) (b : go.bool) (i : go.int) (i64 : go.int64)
    (u64 : go.uint64) (str : go.string) (t : time.Time) :
    msg.Err err w =
      some (msg, w.attach msg.Event.addr ev { key := "error", val := FieldValue.err err }) ∧
    msg.Bool key b w =
      some (msg, w.attach msg.Event.addr ev { key := key, val := FieldValue.bool b }) ∧
    msg.Int key i w =
      some (msg, w.attach msg.Event.addr ev { key := key, val := FieldValue.int i }) ∧
    msg.Int64 key i64 w =
      some (msg, w.attach msg.Event.addr ev { key := key, val := FieldValue.int64 i64 }) ∧
    msg.Uint64 key u64 w =
      some (msg, w.attach msg.Event.addr ev { key := key, val := FieldValue.uint64 u64 }) ∧
    msg.Str key str w =
      some (msg, w.attach msg.Event.addr ev { key := key, val := FieldValue.str str }) ∧
    msg.Time key t w =
      some (msg, w.attach msg.Event.addr ev { key := key, val := FieldValue.time t }) ∧
    ∀ f : LogField,
      (w.attach msg.Event.addr ev f).events[msg.Event.addr]? =
        some (some { w := ev.w, level := ev.level, enabled := ev.enabled,
                     timestamp := ev.timestamp, fields := ev.fields ++ [f] }) ∧
      (∀ a : Nat, a ≠ msg.Event.addr →
        (w.attach msg.Event.addr ev f).events[a]? = w.events[a]?) ∧
      (w.attach msg.Event.addr ev f).written = w.written ∧
      (w.attach msg.Event.addr ev f).now = w.now := by
  refine ⟨Setter.call_open (Setter.Err err) msg w ev h,
    Setter.call_open (Setter.Bool key b) msg w ev h,
    Setter.call_open (Setter.Int key i) msg w ev h,
    Setter.call_open (Setter.Int64 key i64) msg w ev h,
    Setter.call_open (Setter.Uint64 key u64) msg w ev h,
    Setter.call_open (Setter.Str key str) msg w ev h,
    Setter.call_open (Setter.Time key t) msg w ev h, ?_⟩
  intro f
  have hlt : msg.Event.addr < w.events.length := by
    by_contra hge
    rw [List.getElem?_eq_none (not_lt.mp hge)] at h
    cases h
  refine ⟨?_, ?_, rfl, rfl⟩
  · simp [World.attach, hlt]
  · intro a ha
    simp [World.attach, List.getElem?_set, Ne.symm ha]

/-- Witness for C8: the builder of the open event at address 0 of
`World.oneOpen`, which already holds the field a=true. -/
theorem setters_append_witness :
    World.oneOpen.events[(zeroMessage.mk (zerolog.EventPtr.mk 0)).Event.addr]? =
      some (some { w := 7, level := zerolog.Level.InfoLevel, enabled := true,
                   timestamp := true,
                   fields := [{ key := "a", val := FieldValue.bool true }] }) ∧
    (zeroMessage.Str (zeroMessage.mk (zerolog.EventPtr.mk 0)) "k" "v" World.oneOpen =
      some (zeroMessage.mk (zerolog.EventPtr.mk 0),
        { events := [some { w := 7, level := zerolog.Level.InfoLevel, enabled := true,
                            timestamp := true,
                            fields := [{ key := "a", val := FieldValue.bool true },
                                       { key := "k", val := FieldValue.str "v" }] }],
          written := [], now := 1000 })) ∧
    (zeroMessage.Int (zeroMessage.mk (zerolog.EventPtr.mk 0)) "k" 42 World.oneOpen =
      some (zeroMessage.mk (zerolog.EventPtr.mk 0),
        { events := [some { w := 7, level := zerolog.Level.InfoLevel, enabled := true,
                            timestamp := true,
                            fields := [{ key := "a", val := FieldValue.bool true },
                                       { key := "k", val := FieldValue.int 42 }] }],
          written := [], now := 1000 })) :=
  have h := setters_append (zeroMessage.mk (zerolog.EventPtr.mk 0)) World.oneOpen
    { w := 7, level := zerolog.Level.InfoLevel, enabled := true, timestamp := true,
      fields := [{ key := "a", val := FieldValue.bool true }] }
    (by decide) (some { text := "boom" }) "k" true 42 42 42 "v" 5
  ⟨by decide, h.2.2.2.2.2.1, h.2.2.1⟩

/-- C9: for every facade, `Notice()` is the same computation as `Info()`: in
every world both return the same builder, of a fresh event at backend severity
Info with no field set, and leave the same world; hence every chain of setters
ended by `Msg` or by `Msgf` gives the same result and the same output on the
two. -/
theorem Notice_eq_Info (log : ZeroLogger) :
    log.Notice = log.Info ∧
    (∀ w : World, ∃ (b : zeroMessage) (w1 : World),
      log.Notice w = some (b, w1) ∧ log.Info w = some (b, w1) ∧
      w1.events[b.Event.addr]? =
        some (some { w := log.Logger.w, level := zerolog.Level.InfoLevel,
                     enabled := decide (log.Logger.level.rank ≤
                       zerolog.Level.InfoLevel.rank),
                     timestamp := log.Logger.timestamp, fields := [] })) ∧
    (∀ (ss : List Setter) (text : go.string) (w : World),
      (((log.Notice).andThen fun m => m.chain ss).andThen fun m => m.Msg text) w =
        (((log.Info).andThen fun m => m.chain ss).andThen fun m => m.Msg text) w) ∧
    (∀ (ss : List Setter) (format : go.string) (a : List GoValue) (w : World),
      (((log.Notice).andThen fun m => m.chain ss).andThen fun m => m.Msgf format a) w =
        (((log.Info).andThen fun m => m.chain ss).andThen fun m => m.Msgf format a) w) := by
  have h : log.Notice = log.Info := rfl
  refine ⟨h, ?_, ?_, ?_⟩
  · intro w
    refine ⟨{ Event := { addr := w.events.length } }, _, rfl, rfl, ?_⟩
    simp
  · intro ss text w
    rw [h]
  · intro ss format a w
    rw [h]
